/-
Verification of the gpt-researcher orchestration core against its design
specification.  The development shallowly embeds the three source files
(gpt_researcher/master/agent.py, gpt_researcher/utils/websocket_manager.py,
backend/server.py): pure fragments become Lean functions, the mutable
session state (visited-URL set, manager dictionaries) is passed explicitly,
Python exceptions are modelled by Option results, and external collaborators
(search, scraping, ranking, report generation, the JSON parser, the
tokenizer) are parameters or spec-modelled stubs, as noted at each
definition.
-/
import Mathlib

namespace GPTR

/-! ### URL Dedup Set — `GPTResearcher.get_new_urls` (agent.py lines 151-165)

The Python method iterates over the given URLs; a URL not in
`self.visited_urls` is added to the set and appended to the returned list.
The session set `visited_urls` is passed explicitly as a `Finset String`. -/

/-- Embedding of `GPTResearcher.get_new_urls`: returns the admitted URL list
together with the updated `visited_urls` set. -/
def get_new_urls : List String → Finset String → List String × Finset String
  | [], visited => ([], visited)
  | url :: rest, visited =>
    if url ∈ visited then get_new_urls rest visited
    else
      let r := get_new_urls rest (insert url visited)
      (url :: r.1, r.2)

/-- A session-long sequence of `get_new_urls` calls: folds the visited set
through the call inputs and collects each call's returned list. -/
def runDedupCalls : List (List String) → Finset String → List (List String) × Finset String
  | [], visited => ([], visited)
  | urls :: more, visited =>
    let r := get_new_urls urls visited
    let rest := runDedupCalls more r.2
    (r.1 :: rest.1, rest.2)

/-! ### Serialization and token counting (agent.py lines 11-15 and 88-91) -/

/-- Python `str()` of a list of strings: items rendered with `repr`,
separated by a comma and a space, in square brackets.  Faithful for strings
without quote or escape characters; in particular `str([])` is the
two-character string of an opening and closing square bracket.  Embeds the
`str(self.context)` serialization used by the eviction loop. -/
def pyStrList (ctx : List String) : String :=
  "[" ++ String.intercalate ", " (ctx.map (fun s => "\x27" ++ s ++ "\x27")) ++ "]"

/-- Modelled from the spec: `count_tokens` (agent.py lines 11-15) delegates
to the external tiktoken cl100k_base encoder, which is not part of this
repository.  The glossary defines a token only as "a unit of text as counted
by a fixed tokenizer"; we model the fixed tokenizer as one token per
character.  The theorems below use only concrete counts of concrete strings
and the fact that a nonempty string has a positive token count, which every
faithful tokenizer model shares. -/
def count_tokens (s : String) : Nat := s.length

/-- Token count of the serialized context, `count_tokens(str(self.context))`. -/
def contextTokens (ctx : List String) : Nat := count_tokens (pyStrList ctx)

/-! ### Context Budgeter — the eviction loop in `GPTResearcher.run`
(agent.py lines 88-90):

`while count_tokens(str(self.context)) > context_token_limit:`
`    self.context.pop(random.randrange(len(self.context)))`

`tc` is the token count of the serialized context (kept abstract so the
theorems do not depend on the tokenizer model), `limit` is the possibly
negative integer bound, and `oracle` supplies the successive values drawn by
`random.randrange`, reduced modulo the current length so that every possible
random choice is represented.  `random.randrange(0)` on an empty context
raises ValueError; the raise is modelled by `none`. -/

def fitLoop (tc : List String → Nat) (limit : Int) (oracle : Nat → Nat) :
    List String → Nat → Option (List String)
  | ctx, step =>
    if (tc ctx : Int) ≤ limit then some ctx
    else
      match ctx with
      | [] => none
      | x :: xs =>
        fitLoop tc limit oracle ((x :: xs).eraseIdx (oracle step % (x :: xs).length)) (step + 1)
  termination_by ctx _ => ctx.length
  decreasing_by
    have hlt : oracle step % (x :: xs).length < (x :: xs).length :=
      Nat.mod_lt _ (by simp)
    rw [List.length_eraseIdx_of_lt hlt]
    simp

/-! ### Search-mode context — `GPTResearcher.get_context_by_search`
(agent.py lines 119-134).  `get_sub_queries` is the decomposition
collaborator (query/role/config closed over), `process_sub_query` gathers
the content block for one sub-query.  `asyncio.gather` returns its results
in argument order, modelled by `List.map`. -/

/-- The dispatched sub-query list of line 127:
`get_sub_queries(query, ...) + [query]`. -/
def sub_queries (get_sub_queries : String → List String) (query : String) : List String :=
  get_sub_queries query ++ [query]

/-- Embedding of `get_context_by_search`: one gathered block per sub-query,
in dispatch order. -/
def get_context_by_search (get_sub_queries : String → List String)
    (process_sub_query : String → String) (query : String) : List String :=
  (sub_queries get_sub_queries query).map process_sub_query

/-! ### Research Orchestrator — `GPTResearcher.run` (agent.py lines 57-106) -/

/-- Modelled from the spec: the `Config` class lives in
`gpt_researcher/config`, which is not among the provided sources.  Per §3 of
the spec it is an immutable record of per-session parameters; only the
fields read by `run` are modelled.  An unset `agent_role` is modelled by the
empty string (Python falsy). -/
structure Cfg where
  smart_token_max : Int
  total_words : Int
  prompt_token_limit : Int
  agent_role : String
  smart_llm_model : String
  deriving DecidableEq

/-- An outbound message, as produced by `stream_output(type, output, ws)`.
The `usage` payload of agent.py lines 101-105 is kept structured. -/
inductive Msg
  | logs (output : String)
  | usage (prompt_tokens : Nat) (completion_tokens : Nat) (smart_llm_model : String)
  deriving DecidableEq

/-- True exactly on `usage`-typed messages. -/
def isUsage : Msg → Bool
  | .usage _ _ _ => true
  | .logs _ => false

/-- Embedding of the mode selection of agent.py lines 69-72:
`if self.source_urls:` takes URL mode, `else` search mode.  Python
truthiness makes both `None` and the empty list falsy.  `byUrls` and
`bySearch` return their context list together with the log strings they
stream. -/
def selectContext (byUrls : List String → List String × List String)
    (bySearch : String → List String × List String)
    (source_urls : Option (List String)) (query : String) :
    List String × List String :=
  match source_urls with
  | none => bySearch query
  | some [] => bySearch query
  | some us => byUrls us

/-- Embedding of the role override of agent.py lines 75-76:
`if self.report_type == "custom_report": self.role = self.cfg.agent_role if
self.cfg.agent_role else self.role`.  An empty `agent_role` is Python
falsy. -/
def resolveRole (report_type : String) (cfg_agent_role : String) (role : String) : String :=
  if report_type = "custom_report" then
    (if cfg_agent_role ≠ "" then cfg_agent_role else role)
  else role

/-- The fixed reserved allowance `buffer_tokens = 512` of agent.py line 83. -/
def buffer_tokens : Int := 512

/-- Line 81: `min(self.cfg.smart_token_max - self.cfg.total_words * 2,
self.cfg.prompt_token_limit)`.  Python integers are exact, modelled by
`Int`. -/
def prompt_token_limit_of (cfg : Cfg) : Int :=
  min (cfg.smart_token_max - cfg.total_words * 2) cfg.prompt_token_limit

/-- Line 84: `context_token_limit = prompt_token_limit - buffer_tokens`. -/
def context_token_limit (cfg : Cfg) : Int :=
  prompt_token_limit_of cfg - buffer_tokens

/-- The token budget exactly as §4.5 of the spec words it: `tokenBudget =
min(smartModelMaxTokens - targetWordCount * 2, configuredPromptTokenLimit)
- safetyMargin`, with the safety margin a parameter. -/
def tokenBudget_spec (smartModelMaxTokens targetWordCount configuredPromptTokenLimit safetyMargin : Int) : Int :=
  min (smartModelMaxTokens - targetWordCount * 2) configuredPromptTokenLimit - safetyMargin

/-- Embedding of `GPTResearcher.run` (agent.py lines 57-106).  Collaborators
are parameters: `chooseAgent` is `choose_agent` (returning agent and role),
`byUrls` and `bySearch` are the two context-phase methods, each returning
the context together with the log strings they stream (in the source every
`stream_output` call during context gathering passes the type `"logs"`, so
their emissions enter the message list as `Msg.logs`); `generate` is
`generate_report`; `tc` token-counts a serialized context and `tcS` a
string; `oracle` feeds `random.randrange` in the eviction loop.  A `none`
result models the ValueError escaping from the eviction loop.  On success
the returned report is paired with the messages `run` itself streams, in
program order. -/
def run (cfg : Cfg) (chooseAgent : String → String × String)
    (byUrls : List String → List String × List String)
    (bySearch : String → List String × List String)
    (generate : String → List String → String → String → String)
    (tc : List String → Nat) (tcS : String → Nat) (oracle : Nat → Nat)
    (query report_type : String) (source_urls : Option (List String)) :
    Option (String × List Msg) :=
  match fitLoop tc (context_token_limit cfg) oracle
      (selectContext byUrls bySearch source_urls query).1 0 with
  | none => none
  | some ctx =>
    some (generate query ctx
        (resolveRole report_type cfg.agent_role (chooseAgent query).2) report_type,
      Msg.logs (chooseAgent query).1
        :: (selectContext byUrls bySearch source_urls query).2.map Msg.logs
        ++ [Msg.logs ("Writing " ++ report_type ++ " for research task: " ++ query ++ "..."),
            Msg.usage (tc ctx + 512)
              (tcS (generate query ctx
                (resolveRole report_type cfg.agent_role (chooseAgent query).2) report_type))
              cfg.smart_llm_model])

/-! ### Receive loop — `websocket_endpoint` (backend/server.py lines 43-63)

One iteration of the `while True` body, classified by outcome.  The loop
body parses messages starting with `"start"` via `json.loads(data[6:])`,
reads `task` and `report_type` with `dict.get`, starts a research run when
both are truthy, prints an error otherwise, and silently falls through for
any other message.  Only `WebSocketDisconnect` is caught around the loop, so
a parse exception escapes. -/

/-- Outcome of one receive-loop iteration.  `started` records the run's
`task` and `report_type` (the remaining payload fields are passed through to
`start_streaming` and are irrelevant to the claims); `logged` is the
`print("Error: not enough parameters provided.")` branch with no reply and
no run; `ignored` is the silent fall-through for non-`start` messages;
`raised` is an exception escaping the loop. -/
inductive StepResult
  | ignored : StepResult
  | logged : StepResult
  | started (task : String) (report_type : String) : StepResult
  | raised : StepResult
  deriving DecidableEq

/-- Python truthiness of a `dict.get` result: `None` (missing key) and the
empty string are falsy. -/
def truthy : Option String → Bool
  | none => false
  | some s => s ≠ ""

/-- Lookup modelling `dict.get` on a JSON object, here an association
list. -/
def jget (j : List (String × String)) (k : String) : Option String :=
  (j.find? (fun p => p.1 = k)).map Prod.snd

/-- Embedding of `data.startswith("start")` of server.py line 45, decided on
the character list underlying the string: the first five characters are
"start". -/
def startsWithStart (data : String) : Bool :=
  data.data.take 5 == "start".data

/-- The `data[6:]` slice of server.py line 46; Python slices by
character. -/
def pySliceFrom6 (data : String) : String :=
  String.mk (data.data.drop 6)

/-- Embedding of one iteration of the receive loop (server.py lines 43-63).
`loads` models Python `json.loads` on the `data[6:]` slice, restricted to
string-valued flat objects (the claims concern only the `task` and
`report_type` fields); `none` models a parse exception, which nothing in the
loop catches, so the iteration outcome is `raised`. -/
def endpoint_step (loads : String → Option (List (String × String)))
    (data : String) : StepResult :=
  if startsWithStart data then
    match loads (pySliceFrom6 data) with
    | none => .raised
    | some j =>
      let task := jget j "task"
      let report_type := jget j "report_type"
      if truthy task && truthy report_type then
        .started (task.getD "") (report_type.getD "")
      else .logged
  else .ignored

/-- Modelled from the spec: `json.loads` is Python standard library,
external to this repository.  It is defined here on the concrete payloads
the theorems below exercise; every other input is mapped to `none`, a parse
error (`json.loads` raises on the empty string and on truncated input). -/
def loadsModel (s : String) : Option (List (String × String)) :=
  if s = "\x7b\x7d" then some [] else none

/-! ### Session Channel — `WebSocketManager` (websocket_manager.py)

Connections are identified by numbers; the manager state carries the
`active_connections` list and the two per-connection dictionaries, modelled
as association lists, plus the set of task ids on which `cancel()` has been
requested (an asyncio task whose `cancel()` was called does not keep
running). -/

structure ManagerState where
  active_connections : List Nat
  sender_tasks : List (Nat × Nat)
  message_queues : List (Nat × List (Option String))
  cancelled : List Nat
  deriving DecidableEq

/-- Dictionary lookup (`d[k]`, with `none` for a KeyError). -/
def dlookup {α : Type} (d : List (Nat × α)) (k : Nat) : Option α :=
  (d.find? (fun p => p.1 = k)).map Prod.snd

/-- Dictionary deletion (`del d[k]`). -/
def ddel {α : Type} (d : List (Nat × α)) (k : Nat) : List (Nat × α) :=
  d.filter (fun p => p.1 ≠ k)

/-- Embedding of `WebSocketManager.disconnect` (websocket_manager.py lines
40-47): when the websocket is in `active_connections` it is removed, its
sender task is cancelled, a `None` sentinel is enqueued, and both dictionary
entries are deleted; otherwise the call is a no-op.  A missing dictionary
entry would raise KeyError, modelled by `none` (the claims concern only the
non-raising path, so the partially mutated state of that case is not
tracked). -/
def disconnect (ws : Nat) (st : ManagerState) : Option ManagerState :=
  if ws ∈ st.active_connections then
    match dlookup st.sender_tasks ws, dlookup st.message_queues ws with
    | some task, some _ =>
      some { active_connections := st.active_connections.erase ws
             sender_tasks := ddel st.sender_tasks ws
             message_queues := ddel st.message_queues ws
             cancelled := task :: st.cancelled }
    | _, _ => none
  else some st

/-- One iteration of the delivery loop body of `start_sender`
(websocket_manager.py lines 23-31), after a message has been dequeued:
returns `true` when the loop continues to the next message and `false` when
it breaks.  `sendOk` tells whether `websocket.send_text` succeeded. -/
def sender_continues (active : List Nat) (ws : Nat) (sendOk : Bool) : Bool :=
  if ws ∈ active then sendOk else false

/-! ## Lemmas and theorems -/

theorem mem_get_new_urls_fst (u : String) (urls : List String) (visited : Finset String) :
    u ∈ (get_new_urls urls visited).1 ↔ u ∈ urls ∧ u ∉ visited := by
  induction urls generalizing visited with
  | nil => simp [get_new_urls]
  | cons url rest ih =>
    by_cases h : url ∈ visited
    · simp only [get_new_urls, if_pos h, ih, List.mem_cons]
      constructor
      · rintro ⟨h1, h2⟩
        exact ⟨Or.inr h1, h2⟩
      · rintro ⟨h1 | h1, h2⟩
        · exact absurd (h1 ▸ h) h2
        · exact ⟨h1, h2⟩
    · simp only [get_new_urls, if_neg h, List.mem_cons, ih, Finset.mem_insert]
      by_cases hu : u = url
      · simp [hu, h]
      · simp [hu]

theorem get_new_urls_snd (urls : List String) (visited : Finset String) :
    (get_new_urls urls visited).2 = visited ∪ urls.toFinset := by
  induction urls generalizing visited with
  | nil => simp [get_new_urls]
  | cons url rest ih =>
    by_cases h : url ∈ visited
    · rw [get_new_urls, if_pos h, ih]
      ext a
      simp only [Finset.mem_union, List.mem_toFinset, List.toFinset_cons,
        Finset.mem_insert, List.mem_cons]
      constructor
      · rintro (ha | ha)
        · exact Or.inl ha
        · exact Or.inr (Or.inr ha)
      · rintro (ha | ha | ha)
        · exact Or.inl ha
        · exact Or.inl (ha ▸ h)
        · exact Or.inr ha
    · rw [get_new_urls, if_neg h]
      show (get_new_urls rest (insert url visited)).2 = _
      rw [ih]
      ext a
      simp only [Finset.mem_union, Finset.mem_insert, List.mem_toFinset,
        List.toFinset_cons, List.mem_cons]
      tauto

theorem get_new_urls_nodup (urls : List String) (visited : Finset String) :
    (get_new_urls urls visited).1.Nodup := by
  induction urls generalizing visited with
  | nil => simp [get_new_urls]
  | cons url rest ih =>
    by_cases h : url ∈ visited
    · rw [get_new_urls, if_pos h]
      exact ih visited
    · rw [get_new_urls, if_neg h]
      show (url :: (get_new_urls rest (insert url visited)).1).Nodup
      rw [List.nodup_cons]
      refine ⟨?_, ih _⟩
      intro hmem
      rw [mem_get_new_urls_fst] at hmem
      exact hmem.2 (Finset.mem_insert_self url visited)

theorem runDedupCalls_snd (calls : List (List String)) (visited : Finset String) :
    (runDedupCalls calls visited).2 = visited ∪ calls.flatten.toFinset := by
  induction calls generalizing visited with
  | nil => simp [runDedupCalls]
  | cons urls more ih =>
    show (runDedupCalls more (get_new_urls urls visited).2).2 = _
    rw [ih, get_new_urls_snd]
    ext a
    simp only [Finset.mem_union, List.mem_toFinset, List.flatten_cons, List.mem_append]
    tauto

theorem mem_runDedupCalls_join (u : String) (calls : List (List String))
    (visited : Finset String) :
    u ∈ (runDedupCalls calls visited).1.flatten ↔ u ∈ calls.flatten ∧ u ∉ visited := by
  induction calls generalizing visited with
  | nil => simp [runDedupCalls]
  | cons urls more ih =>
    show u ∈ ((get_new_urls urls visited).1 :: _).flatten ↔ _
    rw [List.flatten_cons, List.mem_append, mem_get_new_urls_fst, ih, get_new_urls_snd]
    simp only [List.flatten_cons, List.mem_append, Finset.mem_union, List.mem_toFinset]
    tauto

theorem runDedupCalls_join_nodup (calls : List (List String)) (visited : Finset String) :
    (runDedupCalls calls visited).1.flatten.Nodup := by
  induction calls generalizing visited with
  | nil => simp [runDedupCalls]
  | cons urls more ih =>
    show ((get_new_urls urls visited).1 :: _).flatten.Nodup
    rw [List.flatten_cons, List.nodup_append]
    refine ⟨get_new_urls_nodup _ _, ih _, ?_⟩
    intro a ha hb
    rw [mem_get_new_urls_fst] at ha
    rw [mem_runDedupCalls_join, get_new_urls_snd] at hb
    exact hb.2 (Finset.mem_union_right _ (List.mem_toFinset.mpr ha.1))

/-- C1: within one session (visited set initially empty), for any sequence
of `get_new_urls` calls with arbitrary URL collections, the union of all
returned lists equals the set of distinct URLs across all calls; no URL
appears in more than one returned list nor twice within one returned list
(the concatenation of the returned lists has no duplicate); an empty input
yields an empty output; and every returned URL is in the visited set the
call leaves behind (marked visited before the call returns). -/
theorem dedup_session_urls (calls : List (List String)) (urls : List String)
    (visited : Finset String) :
    (runDedupCalls calls ∅).1.flatten.toFinset = calls.flatten.toFinset
    ∧ (runDedupCalls calls ∅).1.flatten.Nodup
    ∧ get_new_urls [] visited = ([], visited)
    ∧ (get_new_urls urls visited).1.toFinset ⊆ (get_new_urls urls visited).2 := by
  refine ⟨?_, runDedupCalls_join_nodup _ _, rfl, ?_⟩
  · ext a
    simp only [List.mem_toFinset, mem_runDedupCalls_join]
    simp
  · intro a ha
    rw [List.mem_toFinset, mem_get_new_urls_fst] at ha
    rw [get_new_urls_snd]
    exact Finset.mem_union_right _ (List.mem_toFinset.mpr ha.1)

theorem fitLoop_of_le {tc : List String → Nat} {limit : Int} {oracle : Nat → Nat}
    {ctx : List String} (step : Nat) (h : (tc ctx : Int) ≤ limit) :
    fitLoop tc limit oracle ctx step = some ctx := by
  rw [fitLoop.eq_def]
  simp [h]

theorem fitLoop_nil_gt {tc : List String → Nat} {limit : Int} {oracle : Nat → Nat}
    (step : Nat) (h : limit < (tc [] : Int)) :
    fitLoop tc limit oracle [] step = none := by
  rw [fitLoop.eq_def]
  simp [Int.not_le.mpr h]

theorem fitLoop_cons_gt {tc : List String → Nat} {limit : Int} {oracle : Nat → Nat}
    {x : String} {xs : List String} (step : Nat) (h : limit < (tc (x :: xs) : Int)) :
    fitLoop tc limit oracle (x :: xs) step
      = fitLoop tc limit oracle ((x :: xs).eraseIdx (oracle step % (x :: xs).length))
          (step + 1) := by
  rw [fitLoop.eq_def]
  simp [Int.not_le.mpr h]

theorem fitLoop_total_aux (tc : List String → Nat) (limit : Int) (oracle : Nat → Nat)
    (h0 : (tc [] : Int) ≤ limit) :
    ∀ (n : Nat) (ctx : List String), ctx.length ≤ n → ∀ step : Nat,
      ∃ res, fitLoop tc limit oracle ctx step = some res ∧ (tc res : Int) ≤ limit := by
  intro n
  induction n with
  | zero =>
    intro ctx hlen step
    have hctx : ctx = [] := List.length_eq_zero.mp (Nat.le_zero.mp hlen)
    subst hctx
    exact ⟨[], fitLoop_of_le step h0, h0⟩
  | succ n ih =>
    intro ctx hlen step
    by_cases hc : (tc ctx : Int) ≤ limit
    · exact ⟨ctx, fitLoop_of_le step hc, hc⟩
    · cases ctx with
      | nil => exact absurd h0 hc
      | cons x xs =>
        rw [fitLoop_cons_gt step (Int.not_le.mp hc)]
        apply ih
        have hlt : oracle step % (x :: xs).length < (x :: xs).length :=
          Nat.mod_lt _ (by simp)
        rw [List.length_eraseIdx_of_lt hlt]
        simp only [List.length_cons] at hlen ⊢
        omega

theorem fitLoop_sublist_aux (tc : List String → Nat) (limit : Int) (oracle : Nat → Nat) :
    ∀ (n : Nat) (ctx : List String), ctx.length ≤ n → ∀ (step : Nat) (res : List String),
      fitLoop tc limit oracle ctx step = some res → List.Sublist res ctx := by
  intro n
  induction n with
  | zero =>
    intro ctx hlen step res hres
    have hctx : ctx = [] := List.length_eq_zero.mp (Nat.le_zero.mp hlen)
    subst hctx
    by_cases hc : (tc [] : Int) ≤ limit
    · rw [fitLoop_of_le step hc] at hres
      have := Option.some.inj hres
      subst this
      exact List.Sublist.refl _
    · rw [fitLoop_nil_gt step (Int.not_le.mp hc)] at hres
      cases hres
  | succ n ih =>
    intro ctx hlen step res hres
    by_cases hc : (tc ctx : Int) ≤ limit
    · rw [fitLoop_of_le step hc] at hres
      have := Option.some.inj hres
      subst this
      exact List.Sublist.refl _
    · cases ctx with
      | nil =>
        rw [fitLoop_nil_gt step (Int.not_le.mp hc)] at hres
        cases hres
      | cons x xs =>
        rw [fitLoop_cons_gt step (Int.not_le.mp hc)] at hres
        have hlt : oracle step % (x :: xs).length < (x :: xs).length :=
          Nat.mod_lt _ (by simp)
        have hlen' : ((x :: xs).eraseIdx (oracle step % (x :: xs).length)).length ≤ n := by
          rw [List.length_eraseIdx_of_lt hlt]
          simp only [List.length_cons] at hlen ⊢
          omega
        exact (ih _ hlen' (step + 1) res hres).trans (List.eraseIdx_sublist _ _)

/-- C2 counterexample: at the empty context and the non-negative limit 0,
the serialized empty context still exceeds the limit, so the loop body runs
`random.randrange(0)`, which raises ValueError: the eviction loop does not
terminate without raising for every context and non-negative limit. -/
theorem budget_fit_raises_counterexample :
    fitLoop contextTokens 0 (fun _ => 0) [] 0 = none :=
  fitLoop_nil_gt 0 (by decide)

/-- C2 (amended): for every token-count function, eviction oracle and
context, provided the limit is at least the token count of the serialized
empty context, the eviction loop terminates without raising, and at
termination the resulting context is empty or its serialized token count is
at most the limit. -/
theorem budget_fit_terminates (tc : List String → Nat) (limit : Int)
    (oracle : Nat → Nat) (ctx : List String) (h : (tc [] : Int) ≤ limit) :
    ∃ res, fitLoop tc limit oracle ctx 0 = some res
      ∧ (res = [] ∨ (tc res : Int) ≤ limit) := by
  obtain ⟨res, hres, hle⟩ := fitLoop_total_aux tc limit oracle h ctx.length ctx le_rfl 0
  exact ⟨res, hres, Or.inr hle⟩

/-- Witness for C2 (amended) at a concrete context and limit. -/
theorem budget_fit_terminates_witness :
    (contextTokens [] : Int) ≤ 600
    ∧ ∃ res, fitLoop contextTokens 600 (fun _ => 0) ["aaaa", "bbbb"] 0 = some res
        ∧ (res = [] ∨ (contextTokens res : Int) ≤ 600) :=
  ⟨by decide,
   budget_fit_terminates contextTokens 600 (fun _ => 0) ["aaaa", "bbbb"] (by decide)⟩

/-- C7: whenever the eviction loop returns, its output is a sublist of its
input: it has at most as many blocks, and every output block was present in
the input — eviction only removes, never adds or alters blocks. -/
theorem budget_monotonic_shrink (tc : List String → Nat) (limit : Int)
    (oracle : Nat → Nat) (ctx : List String) (step : Nat) (res : List String)
    (h : fitLoop tc limit oracle ctx step = some res) :
    List.Sublist res ctx ∧ res.length ≤ ctx.length ∧ ∀ b ∈ res, b ∈ ctx := by
  have hs := fitLoop_sublist_aux tc limit oracle ctx.length ctx le_rfl step res h
  exact ⟨hs, hs.length_le, fun b hb => hs.subset hb⟩

/-- Witness for C7 at a concrete run of the loop. -/
theorem budget_monotonic_shrink_witness :
    List.Sublist ["ab"] ["ab"] ∧ List.length ["ab"] ≤ List.length ["ab"] :=
  let h := budget_monotonic_shrink contextTokens 1000 (fun _ => 0) ["ab"] 0 ["ab"]
    (fitLoop_of_le 0 (by decide))
  ⟨h.1, h.2.1⟩

/-- C3: in search mode the processed sub-query list is the collaborator
output with the original query appended as the final element, and the merged
context has exactly one content block per sub-query (empty ones included),
concatenated in sub-query dispatch order. -/
theorem search_mode_context (g : String → List String) (p : String → String)
    (q : String) :
    (get_context_by_search g p q).length = (g q).length + 1
    ∧ (∀ i : Nat, (get_context_by_search g p q)[i]? = ((sub_queries g q)[i]?).map p)
    ∧ (sub_queries g q).getLast? = some q := by
  refine ⟨?_, ?_, ?_⟩
  · simp [get_context_by_search, sub_queries]
  · intro i
    simp [get_context_by_search]
  · simp [sub_queries]

/-- C4: the token budget used for eviction equals
`min(smartModelMaxTokens - targetWordCount * 2, configuredPromptTokenLimit)`
minus the fixed 512-token safety margin, in exact integer arithmetic, for
every configuration. -/
theorem token_budget_formula (cfg : Cfg) :
    context_token_limit cfg
      = tokenBudget_spec cfg.smart_token_max cfg.total_words cfg.prompt_token_limit 512 :=
  rfl

/-- C5: whenever `run` reaches report generation (returns a report), its
message stream carries exactly one `usage` message; its `prompt_tokens`
field equals the token count of the post-budgeting serialized context plus
the 512-token safety margin, its `completion_tokens` field equals the token
count of the returned report text, and it carries the smart model
identifier. -/
theorem usage_message_fields (cfg : Cfg) (chooseAgent : String → String × String)
    (byUrls : List String → List String × List String)
    (bySearch : String → List String × List String)
    (generate : String → List String → String → String → String)
    (tc : List String → Nat) (tcS : String → Nat) (oracle : Nat → Nat)
    (query report_type : String) (source_urls : Option (List String))
    (report : String) (msgs : List Msg)
    (h : run cfg chooseAgent byUrls bySearch generate tc tcS oracle query
        report_type source_urls = some (report, msgs)) :
    ∃ ctx, fitLoop tc (context_token_limit cfg) oracle
        (selectContext byUrls bySearch source_urls query).1 0 = some ctx
      ∧ msgs.filter isUsage
          = [Msg.usage (tc ctx + 512) (tcS report) cfg.smart_llm_model] := by
  unfold run at h
  cases hfit : fitLoop tc (context_token_limit cfg) oracle
      (selectContext byUrls bySearch source_urls query).1 0 with
  | none =>
    rw [hfit] at h
    cases h
  | some ctx =>
    rw [hfit] at h
    refine ⟨ctx, rfl, ?_⟩
    have h2 := Option.some.inj h
    injection h2 with hrep hmsgs
    subst hrep
    subst hmsgs
    simp [isUsage, List.filter_append, List.filter_map, Function.comp]

/-- Witness for C5: a concrete search-mode session whose gathered context is
empty; `run` returns report "rep" and streams one usage message. -/
theorem usage_message_fields_witness :
    ∃ ctx, fitLoop contextTokens
        (context_token_limit ⟨100000, 1000, 10000, "", "gpt-3.5-turbo-16k"⟩)
        (fun _ => 0)
        (selectContext (fun us => (us, []))
          (fun _ => ([], ["gathered"])) none "q").1 0 = some ctx
      ∧ ([Msg.logs "agent", Msg.logs "gathered",
          Msg.logs "Writing research_report for research task: q...",
          Msg.usage (contextTokens [] + 512) (count_tokens "rep")
            "gpt-3.5-turbo-16k"]).filter isUsage
          = [Msg.usage (contextTokens ctx + 512) (count_tokens "rep")
              "gpt-3.5-turbo-16k"] := by
  refine usage_message_fields ⟨100000, 1000, 10000, "", "gpt-3.5-turbo-16k"⟩
    (fun _ => ("agent", "role")) (fun us => (us, [])) (fun _ => ([], ["gathered"]))
    (fun _ _ _ _ => "rep") contextTokens count_tokens (fun _ => 0)
    "q" "research_report" none "rep" _ ?_
  unfold run
  rw [fitLoop_of_le 0 (by decide)]
  rfl

/-- C6 counterexample: the message "start" is a start command (it starts
with "start") whose payload — the empty string sliced off by `data[6:]` —
is malformed JSON; `json.loads` raises, nothing in the receive loop catches
it, so the exception escapes: the claim that no exception escapes for every
malformed start command is refuted. -/
theorem malformed_start_counterexample :
    endpoint_step loadsModel "start" = StepResult.raised := by
  decide

/-- C6 (amended): a message not starting with "start" is silently ignored —
no error reply, no research run, no exception, no state change (the
iteration falls through without touching session state); a start command
whose payload parses to an object lacking a truthy task or report_type is
logged and ignored; but a start command whose payload fails to parse raises
an exception that escapes the receive loop. -/
theorem start_command_handling (loads : String → Option (List (String × String)))
    (data : String) (j : List (String × String)) :
    (startsWithStart data = false → endpoint_step loads data = StepResult.ignored)
    ∧ (startsWithStart data = true → loads (pySliceFrom6 data) = some j →
        (truthy (jget j "task") && truthy (jget j "report_type")) = false →
        endpoint_step loads data = StepResult.logged)
    ∧ (startsWithStart data = true → loads (pySliceFrom6 data) = none →
        endpoint_step loads data = StepResult.raised) := by
  refine ⟨?_, ?_, ?_⟩
  · intro h
    simp [endpoint_step, h]
  · intro h hl hf
    simp [endpoint_step, h, hl, hf]
  · intro h hl
    simp [endpoint_step, h, hl]

/-- Witness for C6 (amended) on three concrete client messages. -/
theorem start_command_handling_witness :
    endpoint_step loadsModel "hello" = StepResult.ignored
    ∧ endpoint_step loadsModel "start \x7b\x7d" = StepResult.logged
    ∧ endpoint_step loadsModel "start" = StepResult.raised :=
  ⟨(start_command_handling loadsModel "hello" []).1 (by decide),
   (start_command_handling loadsModel "start \x7b\x7d" []).2.1 (by decide)
     (by decide) (by decide),
   (start_command_handling loadsModel "start" []).2.2 (by decide) (by decide)⟩

/-- C8: for a connection present at most once in `active_connections` (the
connect lifecycle appends it once), a successful `disconnect` is idempotent
— a second call returns the same state and raises no error — after it the
delivery loop breaks at its next dequeued message whatever the transport
does, and `cancel()` has been requested on the connection's sender task, so
the delivery task is not left running. -/
theorem disconnect_idempotent (ws : Nat) (st st' : ManagerState)
    (hcount : st.active_connections.count ws ≤ 1)
    (hmem : ws ∈ st.active_connections)
    (h : disconnect ws st = some st') :
    disconnect ws st' = some st'
    ∧ (∀ b : Bool, sender_continues st'.active_connections ws b = false)
    ∧ ∃ task, dlookup st.sender_tasks ws = some task ∧ task ∈ st'.cancelled := by
  unfold disconnect at h
  rw [if_pos hmem] at h
  cases htask : dlookup st.sender_tasks ws with
  | none =>
    rw [htask] at h
    cases h
  | some task =>
    cases hq : dlookup st.message_queues ws with
    | none =>
      rw [htask, hq] at h
      cases h
    | some q =>
      rw [htask, hq] at h
      have hst' := Option.some.inj h
      have hnotmem : ws ∉ st'.active_connections := by
        rw [← hst']
        have hc1 : st.active_connections.count ws = 1 :=
          Nat.le_antisymm hcount (List.count_pos_iff.mpr hmem)
        have : (st.active_connections.erase ws).count ws = 0 := by
          rw [List.count_erase_self, hc1]
        exact (List.count_eq_zero.mp this)
      refine ⟨?_, ?_, task, rfl, ?_⟩
      · unfold disconnect
        rw [if_neg hnotmem]
      · intro b
        simp [sender_continues, hnotmem]
      · rw [← hst']
        exact List.mem_cons_self _ _

/-- Witness for C8 on a concrete one-connection manager state. -/
theorem disconnect_idempotent_witness :
    disconnect 7 ⟨[], [], [], [99]⟩ = some ⟨[], [], [], [99]⟩
    ∧ sender_continues ((⟨[], [], [], [99]⟩ : ManagerState).active_connections) 7 true
        = false
    ∧ ∃ task, dlookup [(7, 99)] 7 = some task
        ∧ task ∈ (⟨[], [], [], [99]⟩ : ManagerState).cancelled := by
  have h := disconnect_idempotent 7 ⟨[7], [(7, 99)], [(7, [])], []⟩ ⟨[], [], [], [99]⟩
    (by decide) (by decide) (by decide)
  exact ⟨h.1, h.2.1 true, h.2.2⟩

/-- C9: mode selection treats an empty seed-URL list the same as an absent
one: with `source_urls` None or the empty list, `run` takes the search-mode
path, and the URL-mode path is taken only for a non-empty list. -/
theorem mode_selection_empty_urls (byUrls : List String → List String × List String)
    (bySearch : String → List String × List String) (query : String)
    (u : String) (us : List String) :
    selectContext byUrls bySearch none query = bySearch query
    ∧ selectContext byUrls bySearch (some []) query = bySearch query
    ∧ selectContext byUrls bySearch (some (u :: us)) query = byUrls (u :: us) :=
  ⟨rfl, rfl, rfl⟩

/-- C10: when `report_type` is "custom_report" and the configured
`agent_role` is non-empty, the role passed to report generation is the
configured `agent_role`, replacing the derived role; for every other
`report_type` the derived role is used unchanged. -/
theorem custom_report_role_override (report_type cfg_agent_role role : String) :
    (report_type ≠ "custom_report" → resolveRole report_type cfg_agent_role role = role)
    ∧ (cfg_agent_role ≠ "" →
        resolveRole "custom_report" cfg_agent_role role = cfg_agent_role) := by
  constructor
  · intro h
    simp [resolveRole, h]
  · intro h
    simp [resolveRole, h]

/-- Witness for C10 on concrete report types and roles. -/
theorem custom_report_role_override_witness :
    resolveRole "research_report" "boss" "derived" = "derived"
    ∧ resolveRole "custom_report" "boss" "derived" = "boss" :=
  ⟨(custom_report_role_override "research_report" "boss" "derived").1 (by decide),
   (custom_report_role_override "custom_report" "boss" "derived").2 (by decide)⟩

end GPTR
